import Mathlib

/-!
Verification of the buzzline-05-kabore ingestion core against its
specification.  The Python sources `consumers/consumer_kabore.py` and
`consumers/sqlite_consumer_case.py` are shallowly embedded: decoded JSON
values become an inductive `Value` (floats as rationals, since the code only
passes them through or defaults them), dicts become association lists, the
tailing loop body becomes a pure step function on the cursor position, and
the retrying insert becomes a function of an outcome oracle indexed by
attempt number.
-/

namespace Buzzline

/-- Model of a JSON-decoded Python value as produced by json.loads: strings,
ints, floats, booleans and null. -/
inductive Value where
  | vStr (s : String)
  | vInt (n : Int)
  | vFloat (q : Rat)
  | vBool (b : Bool)
  | vNull
deriving DecidableEq

/-- A decoded JSON object (Python dict): association list from keys to values. -/
abbrev Msg := List (String × Value)

/-- Dictionary lookup, first match (keys of a Python dict are unique). -/
def getVal : Msg → String → Option Value
  | [], _ => none
  | (k, v) :: rest, key => if k = key then some v else getVal rest key

/-- Python truthiness of a decoded value. -/
def truthy : Value → Bool
  | .vStr s => decide (s ≠ "")
  | .vInt n => decide (n ≠ 0)
  | .vFloat q => decide (q ≠ 0)
  | .vBool b => b
  | .vNull => false

/-- Characters removed by Python str.strip() with no arguments (the ASCII
whitespace characters; the Unicode extras do not occur in the inputs
considered). -/
def isPySpace (c : Char) : Bool :=
  c == ' ' || c == Char.ofNat 9 || c == Char.ofNat 10 || c == Char.ofNat 11 ||
    c == Char.ofNat 12 || c == Char.ofNat 13

/-- Model of Python str.strip(): drop leading and trailing whitespace. -/
def pyStrip (s : String) : String :=
  ⟨((s.toList.dropWhile isPySpace).reverse.dropWhile isPySpace).reverse⟩

/-- Decimal digits to a natural number. -/
def digitsToNat (cs : List Char) : Nat :=
  cs.foldl (fun a c => a * 10 + (c.toNat - 48)) 0

/-- Optional sign followed by at least one decimal digit. -/
def signedDigits (cs : List Char) : Option Int :=
  let p : Int × List Char :=
    match cs with
    | c :: r => if c = '+' then (1, r) else if c = '-' then (-1, r) else (1, cs)
    | [] => (1, [])
  if p.2 ≠ [] ∧ p.2.all Char.isDigit = true then some (p.1 * digitsToNat p.2)
  else none

/-- Model of Python int(str): optional sign then decimal digits, surrounding
whitespace stripped (underscores and non-decimal bases do not occur in the
inputs considered). -/
def pyParseInt (s : String) : Option Int :=
  signedDigits (pyStrip s).toList

/-- Unsigned part of a Python float literal: digits with optional fractional
part and optional e/E exponent. -/
def unsignedFloat (cs : List Char) : Option Rat :=
  let ip := cs.takeWhile Char.isDigit
  let rest := cs.dropWhile Char.isDigit
  match rest with
  | [] => if ip = [] then none else some (digitsToNat ip)
  | c :: r =>
    if c = '.' then
      let fp := r.takeWhile Char.isDigit
      let r2 := r.dropWhile Char.isDigit
      if ip = [] ∧ fp = [] then none
      else
        let mant : Rat := (digitsToNat ip : Rat) + (digitsToNat fp : Rat) / (10 : Rat) ^ fp.length
        match r2 with
        | [] => some mant
        | e :: r3 =>
          if e = 'e' ∨ e = 'E' then (signedDigits r3).map (fun z => mant * (10 : Rat) ^ z)
          else none
    else if c = 'e' ∨ c = 'E' then
      if ip = [] then none
      else (signedDigits r).map (fun z => (digitsToNat ip : Rat) * (10 : Rat) ^ z)
    else none

/-- Model of Python float(str): optional sign, decimal digits with optional
fractional part and optional exponent (inf, nan and underscores do not occur
in the inputs considered). -/
def pyParseFloat (s : String) : Option Rat :=
  let cs := (pyStrip s).toList
  let sgn : Rat × List Char :=
    match cs with
    | c :: r => if c = '+' then (1, r) else if c = '-' then (-1, r) else (1, cs)
    | [] => (1, [])
  (unsignedFloat sgn.2).map (fun q => sgn.1 * q)

/-- Model of Python float(v) on a decoded value; none when the call raises
(null, or a string that is not a float literal). -/
def floatOfValue : Value → Option Rat
  | .vFloat q => some q
  | .vInt n => some (n : Rat)
  | .vBool b => some (if b then 1 else 0)
  | .vStr s => pyParseFloat s
  | .vNull => none

/-- Truncation toward zero, as Python int() applied to a float. -/
def truncRat (q : Rat) : Int :=
  if 0 ≤ q then Rat.floor q else -Rat.floor (-q)

/-- Model of Python int(v) on a decoded value; none when the call raises. -/
def intOfValue : Value → Option Int
  | .vInt n => some n
  | .vBool b => some (if b then 1 else 0)
  | .vFloat q => some (truncRat q)
  | .vStr s => pyParseInt s
  | .vNull => none

/-- Model of _coerce_float (consumer_kabore.py lines 47-51): float(val) with
the given default on any failure; the argument is an Option because
msg.get returns Python None for a missing key, and float(None) raises. -/
def _coerce_float (val : Option Value) (default : Rat) : Rat :=
  match val with
  | some v => (floatOfValue v).getD default
  | none => default

/-- Model of _coerce_int (consumer_kabore.py lines 54-58): int(val) with the
given default on any failure. -/
def _coerce_int (val : Option Value) (default : Int) : Int :=
  match val with
  | some v => (intOfValue v).getD default
  | none => default

/-- Model of the Python expression (msg.get(k) or "").strip() in
process_message: a missing key or a falsy value yields the empty string, a
string is stripped, and a truthy non-string raises AttributeError on .strip
(modelled as none, which the surrounding try/except turns into rejection). -/
def strippedField : Option Value → Option String
  | none => some ""
  | some (.vStr s) => some (pyStrip s)
  | some w => if truthy w then none else some ""

/-- Python isinstance(v, int): true for ints and for booleans, since bool is a
subclass of int. -/
def isInstInt : Value → Bool
  | .vInt _ => true
  | .vBool _ => true
  | _ => false

/-- Integer carried by an int-instance (True counts as 1, False as 0). -/
def intOfInst : Value → Int
  | .vInt n => n
  | .vBool b => if b then 1 else 0
  | _ => 0

/-- Lines 83-87 of process_message: the coerced message_length before the
recompute-from-text step; an isinstance(int) value is kept as is, anything
else goes through _coerce_int with default 0. -/
def mlCoerce : Option Value → Int
  | some w => if isInstInt w then intOfInst w else _coerce_int (some w) 0
  | none => _coerce_int none 0

/-- The seven canonical output keys, in the order process_message builds its
result dict. -/
def canonicalKeys : List String :=
  ["message", "author", "timestamp", "category", "sentiment",
    "keyword_mentioned", "message_length"]

/-- Lines 83-89 of process_message: the final message_length — the coerced
input value, recomputed as len(raw_message) when it is non-positive and the
stripped message text is non-empty (Python string truthiness). -/
def mlFinal (msg : Msg) (raw_message : String) : Int :=
  if mlCoerce (getVal msg "message_length") ≤ 0 ∧ raw_message ≠ "" then
    (raw_message.length : Int)
  else mlCoerce (getVal msg "message_length")

/-- The dict built at lines 100-108 of process_message from the five stripped
text fields, the coerced sentiment and the final message_length. -/
def builtRecord (msg : Msg)
    (raw_message author timestamp category keyword_mentioned : String) : Msg :=
  [("message", .vStr raw_message), ("author", .vStr author),
    ("timestamp", .vStr timestamp), ("category", .vStr category),
    ("sentiment", .vFloat (_coerce_float (getVal msg "sentiment") 0)),
    ("keyword_mentioned", .vStr keyword_mentioned),
    ("message_length", .vInt (mlFinal msg raw_message))]

/-- Model of process_message (consumer_kabore.py lines 69-113): normalize one
decoded message to the seven-key record, or none when invalid (the
AttributeError raised by calling .strip on a truthy non-string is caught by
the surrounding try/except and turned into None). -/
def process_message (msg : Msg) : Option Msg :=
  match strippedField (getVal msg "message"), strippedField (getVal msg "author"),
      strippedField (getVal msg "timestamp"), strippedField (getVal msg "category"),
      strippedField (getVal msg "keyword_mentioned") with
  | some raw_message, some author, some timestamp, some category, some keyword_mentioned =>
    some (builtRecord msg raw_message author timestamp category keyword_mentioned)
  | _, _, _, _, _ => none

/-- Python str.startswith, over the character lists (kernel-reducible). -/
def strStartsWith (s pre : String) : Bool := pre.data.isPrefixOf s.data

/-- Python str.endswith, over the character lists (kernel-reducible). -/
def strEndsWith (s post : String) : Bool :=
  post.data.reverse.isPrefixOf s.data.reverse

/-- Python str.lower for the ASCII texts that occur. -/
def strToLower (s : String) : String := ⟨s.data.map Char.toLower⟩

/-- Opening brace as a string, kept out of string literals. -/
def lbraceS : String := String.singleton (Char.ofNat 123)

/-- Closing brace as a string. -/
def rbraceS : String := String.singleton (Char.ofNat 125)

/-- Carriage return as a string. -/
def crS : String := String.singleton (Char.ofNat 13)

/-- Model of _safe_json_loads (consumer_kabore.py lines 116-131),
parameterized by the external JSON parser json.loads (none both for a parse
error, which the code catches, and for a non-dict result): blank lines and
lines that do not look like a serialized object are discarded before
parsing. -/
def _safe_json_loads (jsonLoads : String → Option Msg) (line : String) : Option Msg :=
  let s := pyStrip line
  if s = "" then none
  else if strStartsWith s lbraceS && strEndsWith s rbraceS then jsonLoads s
  else none

/-- Characters at which Python str.splitlines splits. -/
def isLineBreakChar (c : Char) : Bool :=
  c == Char.ofNat 10 || c == Char.ofNat 13 || c == Char.ofNat 11 ||
    c == Char.ofNat 12 || c == Char.ofNat 28 || c == Char.ofNat 29 ||
    c == Char.ofNat 30 || c == Char.ofNat 133 || c == Char.ofNat 8232 ||
    c == Char.ofNat 8233

/-- Worker for Python str.splitlines (keepends=False): CRLF counts as one
boundary, a trailing terminator does not produce a final empty line. -/
def splitlinesAux : List Char → List Char → List String
  | [], acc => if acc = [] then [] else [⟨acc.reverse⟩]
  | [c], acc =>
    if isLineBreakChar c then [⟨acc.reverse⟩] else [⟨(c :: acc).reverse⟩]
  | c :: d :: rest, acc =>
    if c = Char.ofNat 13 then
      if d = Char.ofNat 10 then ⟨acc.reverse⟩ :: splitlinesAux rest []
      else ⟨acc.reverse⟩ :: splitlinesAux (d :: rest) []
    else if isLineBreakChar c then ⟨acc.reverse⟩ :: splitlinesAux (d :: rest) []
    else splitlinesAux (d :: rest) (c :: acc)

/-- Model of Python str.splitlines (keepends=False). -/
def splitlinesPy (s : String) : List String := splitlinesAux s.toList []

/-- Worker for Python str.splitlines(keepends=True): like splitlinesAux but
each line keeps its terminator. -/
def splitlinesKeepAux : List Char → List Char → List String
  | [], acc => if acc = [] then [] else [⟨acc.reverse⟩]
  | [c], acc =>
    if isLineBreakChar c then [⟨(c :: acc).reverse⟩] else [⟨(c :: acc).reverse⟩]
  | c :: d :: rest, acc =>
    if c = Char.ofNat 13 then
      if d = Char.ofNat 10 then ⟨(d :: c :: acc).reverse⟩ :: splitlinesKeepAux rest []
      else ⟨(c :: acc).reverse⟩ :: splitlinesKeepAux (d :: rest) []
    else if isLineBreakChar c then ⟨(c :: acc).reverse⟩ :: splitlinesKeepAux (d :: rest) []
    else splitlinesKeepAux (d :: rest) (c :: acc)

/-- Python str.splitlines(keepends=True): split into lines, terminators
included. -/
def splitlinesKeepPy (s : String) : List String := splitlinesKeepAux s.toList []

/-- Python text-mode universal-newline translation applied when the loop
reads the file ("r" mode): CRLF and lone CR in the raw bytes become LF in
the string the code sees. -/
def univNewlines : List Char → List Char
  | [] => []
  | [c] => if c = Char.ofNat 13 then [Char.ofNat 10] else [c]
  | c :: d :: rest =>
    if c = Char.ofNat 13 then
      if d = Char.ofNat 10 then Char.ofNat 10 :: univNewlines rest
      else Char.ofNat 10 :: univNewlines (d :: rest)
    else c :: univNewlines (d :: rest)

/-- Line 188 of tail_file_realtime: new_data.endswith(LF) or
new_data.endswith(CR). -/
def has_trailing_newline (s : String) : Bool :=
  strEndsWith s "\n" || strEndsWith s crS

/-- Line 189: the number of lines of the read that are treated as complete;
max(len(lines) - 1, 0) is natural-number subtraction. -/
def complete_count (s : String) : Nat :=
  if has_trailing_newline s then (splitlinesPy s).length
  else (splitlinesPy s).length - 1

/-- The lines handed to the per-line processing loop (lines[:complete_count]). -/
def completeLines (s : String) : List String :=
  (splitlinesPy s).take (complete_count s)

/-- Line 201: the text whose UTF-8 byte length the code adds to last_pos. -/
def consumed_text (s : String) : String :=
  String.intercalate "\n" (completeLines s) ++ "\n"

/-- Line 202: the number of bytes the cursor is advanced by. -/
def consumed_bytes (s : String) : Nat :=
  (consumed_text s).utf8ByteSize

/-- Modelled from the spec: the number of bytes the first n complete lines
occupy in the source, line terminators included ("the number of bytes
consumed by the complete lines returned"). -/
def bytesOfFirstLines (file : String) (n : Nat) : Nat :=
  ((splitlinesKeepPy file).take n).foldl (fun a l => a + l.utf8ByteSize) 0

/-- One line of the draining loop body (lines 191-197): parse with
_safe_json_loads, normalize with process_message; some record exactly when
the line reaches insert_message (the `if processed` check is Python dict
truthiness, false only for None or an empty dict). -/
def lineRecord (jsonLoads : String → Option Msg) (line : String) : Option Msg :=
  match _safe_json_loads jsonLoads line with
  | none => none
  | some m =>
    match process_message m with
    | none => none
    | some d => if d = [] then none else some d

/-- Drain the complete lines of one read in order; sink k says whether the
k-th insert_message call succeeds (false = it raises after its own retry
handling).  Returns the records inserted and whether an insert raised,
aborting the iteration before the cursor advance. -/
def drainLines (jsonLoads : String → Option Msg) (sink : Nat → Bool) :
    List String → Nat → List Msg × Bool
  | [], _ => ([], false)
  | l :: rest, k =>
    match lineRecord jsonLoads l with
    | none => drainLines jsonLoads sink rest k
    | some d =>
      if sink k then
        let r := drainLines jsonLoads sink rest (k + 1)
        (d :: r.1, r.2)
      else ([], true)

/-- What one iteration of the tailing loop observes: whether the live file
exists, its stat size, and the (universal-newline translated) text read from
the stored position. -/
structure TailObs where
  present : Bool
  size : Nat
  newData : String
deriving DecidableEq

/-- Result of one iteration of the tailing loop body. -/
structure StepRes where
  pos : Nat
  slept : Bool
  errored : Bool
  inserted : List Msg
deriving DecidableEq

/-- Lines 170-174: last_pos after the truncation/rotation check. -/
def truncAdjust (pos : Nat) (o : TailObs) : Nat :=
  if o.size < pos then 0 else pos

/-- Model of one iteration of the while-loop body of tail_file_realtime
(lines 163-212): missing file and empty read sleep and leave the position
alone (after the truncation reset); otherwise the complete lines are
drained; an insert failure is an exception caught by the outer handler, so
the position advance on line 202 is never reached; otherwise the position
advances by consumed_bytes exactly when there was a complete line. -/
def tailStep (jsonLoads : String → Option Msg) (sink : Nat → Bool)
    (pos : Nat) (o : TailObs) : StepRes :=
  if o.present = false then ⟨pos, true, false, []⟩
  else if o.newData = "" then ⟨truncAdjust pos o, true, false, []⟩
  else if (drainLines jsonLoads sink (completeLines o.newData) 0).2 then
    ⟨truncAdjust pos o, true, true, (drainLines jsonLoads sink (completeLines o.newData) 0).1⟩
  else if 0 < complete_count o.newData then
    ⟨truncAdjust pos o + consumed_bytes o.newData, false, false,
      (drainLines jsonLoads sink (completeLines o.newData) 0).1⟩
  else ⟨truncAdjust pos o, true, false, (drainLines jsonLoads sink (completeLines o.newData) 0).1⟩

/-- What can reach one turn of the while-True loop: an external interrupt
(KeyboardInterrupt), an unexpected exception before the body mutates
last_pos, or a normal observation of the file. -/
inductive LoopEvent where
  | interrupt
  | unexpected
  | observe (o : TailObs)
deriving DecidableEq

/-- One turn of the while-True loop: KeyboardInterrupt breaks out (none);
any other exception is caught, logged and slept through; otherwise the body
runs and yields the next position. -/
def loopStep (jsonLoads : String → Option Msg) (sink : Nat → Bool)
    (pos : Nat) : LoopEvent → Option Nat
  | .interrupt => none
  | .unexpected => some pos
  | .observe o => some (tailStep jsonLoads sink pos o).pos

/-- Outcome of one sqlite3 attempt inside insert_message: success, an
OperationalError with its message, or any other exception. -/
inductive SinkOutcome where
  | success
  | opError (m : String)
  | otherError (m : String)
deriving DecidableEq

/-- How insert_message concludes: normal return, or a raised
OperationalError / other exception. -/
inductive SinkResult where
  | inserted
  | raisedOp (m : String)
  | raisedOther (m : String)
deriving DecidableEq

/-- Substring test over character lists. -/
def hasSub (pat : List Char) : List Char → Bool
  | [] => pat.isEmpty
  | c :: r => pat.isPrefixOf (c :: r) || hasSub pat r

/-- Line 128 of sqlite_consumer_case.py: "locked" in str(e).lower() or
"busy" in str(e).lower(). -/
def is_lock_error (m : String) : Bool :=
  hasSub "locked".toList (strToLower m).toList ||
    hasSub "busy".toList (strToLower m).toList

/-- Model of the retry loop of insert_message (sqlite_consumer_case.py lines
108-140): the store oracle gives the outcome of each attempt; the result is
paired with the list of sleep delays performed, in order.  A locked/busy
OperationalError with attempt < max_retries sleeps base_sleep * 2 ** attempt
and retries; anything else raises immediately. -/
def insertLoop (store : Nat → SinkOutcome) (max_retries : Nat) (base_sleep : Rat)
    (attempt : Nat) : SinkResult × List Rat :=
  match store attempt with
  | .success => (.inserted, [])
  | .opError m =>
    if h : is_lock_error m = true ∧ attempt < max_retries then
      let r := insertLoop store max_retries base_sleep (attempt + 1)
      (r.1, base_sleep * 2 ^ attempt :: r.2)
    else (.raisedOp m, [])
  | .otherError m => (.raisedOther m, [])
termination_by max_retries - attempt
decreasing_by exact Nat.sub_succ_lt_self _ _ h.2

/-- insert_message with its default parameters: max_retries = 6,
base_sleep = 0.05, attempt starting at 0. -/
def insert_message (store : Nat → SinkOutcome) : SinkResult × List Rat :=
  insertLoop store 6 ((1 : Rat) / 20) 0

/-- The seven-column row bound into the INSERT statement (lines 98-106 of
sqlite_consumer_case.py). -/
structure Payload where
  message : String
  author : String
  timestamp : String
  category : String
  sentiment : Rat
  keyword_mentioned : String
  message_length : Int
deriving DecidableEq

/-- Model of Python str(v) for the values that occur; only actual strings
reach it in the records the loop inserts, so the decimal rendering of a
float is abstracted as the rational's rendering. -/
def pyStr : Option Value → String
  | none => "None"
  | some (.vStr s) => s
  | some (.vInt n) => toString n
  | some (.vFloat q) => toString q
  | some (.vBool b) => if b then "True" else "False"
  | some .vNull => "None"

/-- Model of the defensive payload construction of insert_message: str() on
the five text fields, float(message.get("sentiment", 0.0)) and
int(message.get("message_length", 0)); none when one of the numeric casts
raises. -/
def insertPayload (m : Msg) : Option Payload :=
  let sentimentC : Option Rat :=
    match getVal m "sentiment" with
    | none => some 0
    | some v => floatOfValue v
  let mlC : Option Int :=
    match getVal m "message_length" with
    | none => some 0
    | some v => intOfValue v
  match sentimentC, mlC with
  | some q, some n =>
    some ⟨pyStr (getVal m "message"), pyStr (getVal m "author"),
      pyStr (getVal m "timestamp"), pyStr (getVal m "category"), q,
      pyStr (getVal m "keyword_mentioned"), n⟩
  | _, _ => none

/-- The five text fields of the schema, in the order process_message reads
them. -/
def textKeys : List String :=
  ["message", "author", "timestamp", "category", "keyword_mentioned"]

/-- process_message rejects exactly when one of the five text-field
extractions raises. -/
theorem process_message_none_iff (msg : Msg) :
    process_message msg = none ↔
      strippedField (getVal msg "message") = none ∨
      strippedField (getVal msg "author") = none ∨
      strippedField (getVal msg "timestamp") = none ∨
      strippedField (getVal msg "category") = none ∨
      strippedField (getVal msg "keyword_mentioned") = none := by
  cases h1 : strippedField (getVal msg "message") <;>
    cases h2 : strippedField (getVal msg "author") <;>
      cases h3 : strippedField (getVal msg "timestamp") <;>
        cases h4 : strippedField (getVal msg "category") <;>
          cases h5 : strippedField (getVal msg "keyword_mentioned") <;>
            simp [process_message, h1, h2, h3, h4, h5]

/-- An accepted message yields exactly the built record of its five stripped
text fields. -/
theorem process_message_some (msg : Msg) (d : Msg) (h : process_message msg = some d) :
    ∃ m a t c k, strippedField (getVal msg "message") = some m ∧
      strippedField (getVal msg "author") = some a ∧
      strippedField (getVal msg "timestamp") = some t ∧
      strippedField (getVal msg "category") = some c ∧
      strippedField (getVal msg "keyword_mentioned") = some k ∧
      d = builtRecord msg m a t c k := by
  cases h1 : strippedField (getVal msg "message") with
  | none => exact absurd h (by simp [process_message, h1])
  | some m =>
  cases h2 : strippedField (getVal msg "author") with
  | none => exact absurd h (by simp [process_message, h1, h2])
  | some a =>
  cases h3 : strippedField (getVal msg "timestamp") with
  | none => exact absurd h (by simp [process_message, h1, h2, h3])
  | some t =>
  cases h4 : strippedField (getVal msg "category") with
  | none => exact absurd h (by simp [process_message, h1, h2, h3, h4])
  | some c =>
  cases h5 : strippedField (getVal msg "keyword_mentioned") with
  | none => exact absurd h (by simp [process_message, h1, h2, h3, h4, h5])
  | some k =>
    refine ⟨m, a, t, c, k, rfl, rfl, rfl, rfl, rfl, ?_⟩
    have : process_message msg = some (builtRecord msg m a t c k) := by
      simp [process_message, h1, h2, h3, h4, h5]
    rw [this] at h
    exact (Option.some.injEq _ _ ▸ h).symm

/-- C1: the claim says the cursor advances by exactly the number of bytes the
complete lines occupy in the source file, terminators included, for every
content including CRLF-terminated lines.  Evaluating the code on the
three-byte source file "a" CR LF: the text-mode read sees "a" LF, the poll
returns one complete line, the code advances the position by 2 bytes, but
the line occupies 3 bytes of the source — contradicting the claim and the
code's own comment "Advance file position by only the bytes we consumed". -/
theorem claim_C1_crlf_advance_eval :
    String.mk (univNewlines ("a" ++ crS ++ "\n").toList) = "a\n" ∧
    complete_count "a\n" = 1 ∧
    (tailStep (fun _ => none) (fun _ => true) 0 ⟨true, 3, "a\n"⟩).pos = 2 ∧
    bytesOfFirstLines ("a" ++ crS ++ "\n") 1 = 3 := by
  refine ⟨by decide, by decide, by decide, by decide⟩

/-- C9: only an explicit external interrupt terminates the loop; an
unexpected exception or any observation of the source (absent file,
truncation, malformed lines, insert failure) yields a successor state. -/
theorem claim_C9_only_interrupt_terminates (jsonLoads : String → Option Msg)
    (sink : Nat → Bool) (pos : Nat) (e : LoopEvent) :
    loopStep jsonLoads sink pos e = none ↔ e = .interrupt := by
  cases e <;> simp [loopStep]

/-- C9 witness: at position 7, the interrupt event terminates and a sleep-only
observation does not. -/
theorem claim_C9_only_interrupt_terminates_wit :
    loopStep (fun _ => none) (fun _ => true) 7 .interrupt = none ∧
      loopStep (fun _ => none) (fun _ => true) 7 (.observe ⟨false, 0, ""⟩) ≠ none := by
  constructor
  · exact (claim_C9_only_interrupt_terminates (fun _ => none) (fun _ => true) 7
      .interrupt).mpr rfl
  · intro h
    have h2 := (claim_C9_only_interrupt_terminates (fun _ => none) (fun _ => true) 7
      (.observe ⟨false, 0, ""⟩)).mp h
    exact absurd h2 (by decide)

/-- C7: the last fragment of the split is withheld (the complete lines are
exactly the split minus its last fragment) unless the read ends with a line
terminator, in which case every split line is treated as complete. -/
theorem claim_C7_withhold_partial_tail (s : String) :
    (has_trailing_newline s = false → completeLines s = (splitlinesPy s).dropLast) ∧
    (has_trailing_newline s = true → completeLines s = splitlinesPy s) := by
  constructor
  · intro h
    simp [completeLines, complete_count, h, List.dropLast_eq_take]
  · intro h
    simp [completeLines, complete_count, h]

/-- C7 witness: a read "a" LF "b" withholds the unterminated fragment "b"; a
read "a" LF treats its single line as complete. -/
theorem claim_C7_withhold_partial_tail_wit :
    completeLines "a\nb" = (splitlinesPy "a\nb").dropLast ∧
      completeLines "a\n" = splitlinesPy "a\n" := by
  exact ⟨(claim_C7_withhold_partial_tail "a\nb").1 (by decide),
    (claim_C7_withhold_partial_tail "a\n").2 (by decide)⟩

/-- C6: the cursor never decreases within one epoch (an iteration that does
not observe a shrink yields a position at least the old one), and an
observed size smaller than the position makes the iteration behave exactly
as if the position were 0 — a normal control event, the loop body still
runs. -/
theorem claim_C6_cursor_monotone_reset (jsonLoads : String → Option Msg)
    (sink : Nat → Bool) (pos : Nat) (o : TailObs) :
    (o.present = true → o.size < pos →
      tailStep jsonLoads sink pos o = tailStep jsonLoads sink 0 o) ∧
    (¬ o.size < pos → pos ≤ (tailStep jsonLoads sink pos o).pos) := by
  constructor
  · intro hp hlt
    have h2 : truncAdjust pos o = truncAdjust 0 o := by
      simp [truncAdjust, hlt]
    simp [tailStep, hp, h2]
  · intro hge
    have h1 : truncAdjust pos o = pos := if_neg hge
    simp only [tailStep, h1]
    split_ifs <;> simp

/-- C6 witness: a file of size 1 observed at position 5 is a truncation; the
iteration equals the one from position 0, and from position 0 the position
does not decrease. -/
theorem claim_C6_cursor_monotone_reset_wit :
    tailStep (fun _ => none) (fun _ => true) 5 ⟨true, 1, "x\n"⟩ =
        tailStep (fun _ => none) (fun _ => true) 0 ⟨true, 1, "x\n"⟩ ∧
      0 ≤ (tailStep (fun _ => none) (fun _ => true) 0 ⟨true, 1, "x\n"⟩).pos := by
  exact ⟨(claim_C6_cursor_monotone_reset (fun _ => none) (fun _ => true) 5
      ⟨true, 1, "x\n"⟩).1 (by decide) (by decide),
    (claim_C6_cursor_monotone_reset (fun _ => none) (fun _ => true) 0
      ⟨true, 1, "x\n"⟩).2 (by decide)⟩

/-- C4: an accepted message carries sentiment coerced to a float via
_coerce_float; an absent field, an un-coercible string such as "bad", or a
null all resolve to exactly 0.0. -/
theorem claim_C4_sentiment_default (msg : Msg) (d : Msg)
    (h : process_message msg = some d) :
    getVal d "sentiment" =
        some (.vFloat (_coerce_float (getVal msg "sentiment") 0)) ∧
      ((getVal msg "sentiment" = none ∨ getVal msg "sentiment" = some (.vStr "bad") ∨
          getVal msg "sentiment" = some .vNull) →
        getVal d "sentiment" = some (.vFloat 0)) := by
  obtain ⟨m, a, t, c, k, _, _, _, _, _, rfl⟩ := process_message_some msg d h
  have hbad : pyParseFloat "bad" = none := by decide
  constructor
  · simp [builtRecord, getVal]
  · rintro (hs | hs | hs) <;>
      simp [builtRecord, getVal, hs, _coerce_float, floatOfValue, hbad]

/-- C4 witness: the message whose sentiment field is the string "bad" is
accepted with sentiment exactly 0.0. -/
theorem claim_C4_sentiment_default_wit :
    getVal (builtRecord [("sentiment", Value.vStr "bad")] "" "" "" "" "")
        "sentiment" = some (.vFloat 0) :=
  (claim_C4_sentiment_default [("sentiment", Value.vStr "bad")]
      (builtRecord [("sentiment", Value.vStr "bad")] "" "" "" "" "")
      (by decide)).2 (Or.inr (Or.inl (by decide)))

/-- C3 counterexample: the claim says a non-positive input message_length is
replaced by the character count of the trimmed message and that the result
is always non-negative; on the input with message "" and message_length -5
the code keeps -5, which differs from the character count 0 and is
negative. -/
theorem claim_C3_counterexample :
    (process_message [("message", Value.vStr ""), ("message_length", Value.vInt (-5))]).bind
        (fun d => getVal d "message_length") = some (.vInt (-5)) ∧
      (-5 : Int) < 0 ∧ (pyStrip "").length = 0 := by
  exact ⟨by decide, by decide, by decide⟩

/-- C3 amended: a present positive integer message_length round-trips
unchanged; when the coerced value is non-positive it is recomputed as the
character count of the trimmed message only if that trimmed message is
non-empty; when the trimmed message is empty the coerced value is kept
unchanged (so it can be negative). -/
theorem claim_C3_message_length_amended (msg : Msg) (d : Msg)
    (h : process_message msg = some d) :
    (∀ n : Int, getVal msg "message_length" = some (.vInt n) → 0 < n →
      getVal d "message_length" = some (.vInt n)) ∧
    (∀ s : String, getVal d "message" = some (.vStr s) → s ≠ "" →
      mlCoerce (getVal msg "message_length") ≤ 0 →
      getVal d "message_length" = some (.vInt (s.length : Int))) ∧
    (getVal d "message" = some (.vStr "") →
      getVal d "message_length" =
        some (.vInt (mlCoerce (getVal msg "message_length")))) := by
  obtain ⟨m, a, t, c, k, _, _, _, _, _, rfl⟩ := process_message_some msg d h
  refine ⟨?_, ?_, ?_⟩
  · intro n hn hpos
    have hc : mlCoerce (some (Value.vInt n)) = n := by
      simp [mlCoerce, isInstInt, intOfInst]
    have hm : mlFinal msg m = n := by
      unfold mlFinal
      rw [hn, hc]
      split_ifs with hif
      · exact absurd hif.1 (by omega)
      · rfl
    simp [builtRecord, getVal, hm]
  · intro s hs hne hle
    have hm : m = s := by simpa [builtRecord, getVal] using hs
    subst hm
    simp [builtRecord, getVal, mlFinal, hle, hne]
  · intro hs
    have hm : m = "" := by simpa [builtRecord, getVal] using hs
    subst hm
    simp [builtRecord, getVal, mlFinal]

/-- C3 witness: the spec's example — message "hi!" with message_length 0 —
normalizes to message_length 3. -/
theorem claim_C3_message_length_amended_wit :
    getVal (builtRecord [("message", Value.vStr "hi!"), ("author", Value.vStr "A"),
        ("timestamp", Value.vStr "t"), ("category", Value.vStr "c"),
        ("sentiment", Value.vStr "bad"), ("keyword_mentioned", Value.vStr "k"),
        ("message_length", Value.vInt 0)] "hi!" "A" "t" "c" "k")
      "message_length" = some (.vInt 3) :=
  (claim_C3_message_length_amended
      [("message", Value.vStr "hi!"), ("author", Value.vStr "A"),
        ("timestamp", Value.vStr "t"), ("category", Value.vStr "c"),
        ("sentiment", Value.vStr "bad"), ("keyword_mentioned", Value.vStr "k"),
        ("message_length", Value.vInt 0)]
      (builtRecord [("message", Value.vStr "hi!"), ("author", Value.vStr "A"),
        ("timestamp", Value.vStr "t"), ("category", Value.vStr "c"),
        ("sentiment", Value.vStr "bad"), ("keyword_mentioned", Value.vStr "k"),
        ("message_length", Value.vInt 0)] "hi!" "A" "t" "c" "k")
      (by decide)).2.1 "hi!" (by decide) (by decide) (by decide)

/-- C8: every record the normalizer accepts has exactly the seven canonical
keys in order, each with a defined, typed, non-null value (five strings, a
float, an integer), and the payload handed to the INSERT statement is built
from it without any cast failing. -/
theorem claim_C8_record_shape (msg : Msg) (d : Msg)
    (h : process_message msg = some d) :
    d.map Prod.fst = canonicalKeys ∧
      (∃ s, getVal d "message" = some (.vStr s)) ∧
      (∃ s, getVal d "author" = some (.vStr s)) ∧
      (∃ s, getVal d "timestamp" = some (.vStr s)) ∧
      (∃ s, getVal d "category" = some (.vStr s)) ∧
      (∃ q, getVal d "sentiment" = some (.vFloat q)) ∧
      (∃ s, getVal d "keyword_mentioned" = some (.vStr s)) ∧
      (∃ n, getVal d "message_length" = some (.vInt n)) ∧
      (∃ p : Payload, insertPayload d = some p) := by
  obtain ⟨m, a, t, c, k, _, _, _, _, _, rfl⟩ := process_message_some msg d h
  exact ⟨rfl, ⟨m, rfl⟩, ⟨a, rfl⟩, ⟨t, rfl⟩, ⟨c, rfl⟩,
    ⟨_, rfl⟩, ⟨k, rfl⟩, ⟨_, rfl⟩, ⟨_, rfl⟩⟩

/-- C8 witness: even the empty input dict is accepted, with all seven fields
defaulted and a payload that builds without a cast failure. -/
theorem claim_C8_record_shape_wit :
    (builtRecord [] "" "" "" "" "").map Prod.fst = canonicalKeys ∧
      ∃ p : Payload, insertPayload (builtRecord [] "" "" "" "" "") = some p :=
  ⟨(claim_C8_record_shape [] (builtRecord [] "" "" "" "" "") (by decide)).1,
    (claim_C8_record_shape [] (builtRecord [] "" "" "" "" "") (by decide)).2.2.2.2.2.2.2.2⟩

/-- If every truthy value of a field is a string, extracting the field cannot
raise. -/
theorem strippedField_ne_none (ov : Option Value)
    (hv : ∀ v, ov = some v → truthy v = true → ∃ s, v = .vStr s) :
    strippedField ov ≠ none := by
  cases ov with
  | none => simp [strippedField]
  | some v =>
    cases v with
    | vStr s => simp [strippedField]
    | vInt n =>
      cases htr : truthy (Value.vInt n) with
      | false => simp [strippedField, htr]
      | true =>
        obtain ⟨s, hs⟩ := hv _ rfl htr
        exact absurd hs (by simp)
    | vFloat q =>
      cases htr : truthy (Value.vFloat q) with
      | false => simp [strippedField, htr]
      | true =>
        obtain ⟨s, hs⟩ := hv _ rfl htr
        exact absurd hs (by simp)
    | vBool b =>
      cases htr : truthy (Value.vBool b) with
      | false => simp [strippedField, htr]
      | true =>
        obtain ⟨s, hs⟩ := hv _ rfl htr
        exact absurd hs (by simp)
    | vNull => simp [strippedField, truthy]

/-- A missing key or a falsy value extracts as the empty string. -/
theorem strippedField_falsy (ov : Option Value)
    (hv : ov = none ∨ ∃ v, ov = some v ∧ truthy v = false) :
    strippedField ov = some "" := by
  rcases hv with rfl | ⟨v, rfl, htr⟩
  · rfl
  · cases v with
    | vStr s =>
      have hs : s = "" := by simpa [truthy] using htr
      subst hs
      rfl
    | vInt n => simp [strippedField, htr]
    | vFloat q => simp [strippedField, htr]
    | vBool b => simp [strippedField, htr]
    | vNull => rfl

/-- C10: a truthy non-string value in any of the five text fields makes
process_message reject the whole message (AttributeError on .strip), while a
message in which every present text-field value is a string or falsy is
accepted, and every text field whose input value was absent or falsy is
normalized to the empty string in the accepted record. -/
theorem claim_C10_text_field_validation (msg : Msg) :
    ((∃ kk ∈ textKeys, ∃ v, getVal msg kk = some v ∧ truthy v = true ∧
        ∀ s, v ≠ .vStr s) →
      process_message msg = none) ∧
    ((∀ kk ∈ textKeys, ∀ v, getVal msg kk = some v → truthy v = true →
        ∃ s, v = .vStr s) →
      ∃ d, process_message msg = some d ∧
        ∀ kk ∈ textKeys,
          (getVal msg kk = none ∨ ∃ v, getVal msg kk = some v ∧ truthy v = false) →
          getVal d kk = some (.vStr "")) := by
  constructor
  · rintro ⟨kk, hkk, v, hget, htr, hns⟩
    have herr : strippedField (getVal msg kk) = none := by
      rw [hget]
      cases v with
      | vStr s => exact absurd rfl (hns s)
      | vInt n => simp [strippedField, htr]
      | vFloat q => simp [strippedField, htr]
      | vBool b => simp [strippedField, htr]
      | vNull => simp [truthy] at htr
    apply (process_message_none_iff msg).mpr
    simp only [textKeys, List.mem_cons, List.not_mem_nil, or_false] at hkk
    rcases hkk with rfl | rfl | rfl | rfl | rfl
    · exact Or.inl herr
    · exact Or.inr (Or.inl herr)
    · exact Or.inr (Or.inr (Or.inl herr))
    · exact Or.inr (Or.inr (Or.inr (Or.inl herr)))
    · exact Or.inr (Or.inr (Or.inr (Or.inr herr)))
  · intro hall
    obtain ⟨m, hm⟩ := Option.ne_none_iff_exists'.mp
      (strippedField_ne_none (getVal msg "message") (hall "message" (by decide)))
    obtain ⟨a, ha⟩ := Option.ne_none_iff_exists'.mp
      (strippedField_ne_none (getVal msg "author") (hall "author" (by decide)))
    obtain ⟨t, ht⟩ := Option.ne_none_iff_exists'.mp
      (strippedField_ne_none (getVal msg "timestamp") (hall "timestamp" (by decide)))
    obtain ⟨c, hc⟩ := Option.ne_none_iff_exists'.mp
      (strippedField_ne_none (getVal msg "category") (hall "category" (by decide)))
    obtain ⟨k, hk⟩ := Option.ne_none_iff_exists'.mp
      (strippedField_ne_none (getVal msg "keyword_mentioned")
        (hall "keyword_mentioned" (by decide)))
    refine ⟨builtRecord msg m a t c k,
      by simp [process_message, hm, ha, ht, hc, hk], ?_⟩
    intro kk hkk hfalsy
    have hsf := strippedField_falsy (getVal msg kk) hfalsy
    simp only [textKeys, List.mem_cons, List.not_mem_nil, or_false] at hkk
    rcases hkk with rfl | rfl | rfl | rfl | rfl
    · rw [hm] at hsf
      have : m = "" := by simpa using hsf
      subst this
      rfl
    · rw [ha] at hsf
      have : a = "" := by simpa using hsf
      subst this
      rfl
    · rw [ht] at hsf
      have : t = "" := by simpa using hsf
      subst this
      rfl
    · rw [hc] at hsf
      have : c = "" := by simpa using hsf
      subst this
      rfl
    · rw [hk] at hsf
      have : k = "" := by simpa using hsf
      subst this
      rfl

/-- C10 witness: author given as the integer 5 is rejected; author given as
the falsy integer 0 is accepted, with the falsy author field and the absent
message field both normalized to the empty string in the accepted record. -/
theorem claim_C10_text_field_validation_wit :
    process_message [("author", Value.vInt 5)] = none ∧
      ∃ d, process_message [("author", Value.vInt 0)] = some d ∧
        getVal d "author" = some (.vStr "") ∧
        getVal d "message" = some (.vStr "") := by
  constructor
  · exact (claim_C10_text_field_validation [("author", Value.vInt 5)]).1
      ⟨"author", by decide, Value.vInt 5, by decide, by decide, fun s => by simp⟩
  · have hall : ∀ kk ∈ textKeys, ∀ v,
        getVal [("author", Value.vInt 0)] kk = some v → truthy v = true →
        ∃ s, v = Value.vStr s := by
      intro kk hkk v hget htr
      simp only [textKeys, List.mem_cons, List.not_mem_nil, or_false] at hkk
      rcases hkk with rfl | rfl | rfl | rfl | rfl <;> simp [getVal] at hget
      subst hget
      simp [truthy] at htr
    obtain ⟨d, hd, hf⟩ :=
      (claim_C10_text_field_validation [("author", Value.vInt 0)]).2 hall
    exact ⟨d, hd,
      hf "author" (by decide) (Or.inr ⟨Value.vInt 0, rfl, by decide⟩),
      hf "message" (by decide) (Or.inl rfl)⟩

/-- If no insert of the batch raised, the records inserted are exactly the
parse-accepted records of the lines in order, and every sink call of the
batch succeeded. -/
theorem drainLines_no_abort (jsonLoads : String → Option Msg) (sink : Nat → Bool) :
    ∀ (ls : List String) (k : Nat), (drainLines jsonLoads sink ls k).2 = false →
      (drainLines jsonLoads sink ls k).1 = ls.filterMap (lineRecord jsonLoads) ∧
        ∀ j < (ls.filterMap (lineRecord jsonLoads)).length, sink (k + j) = true := by
  intro ls
  induction ls with
  | nil =>
    intro k h
    simp [drainLines]
  | cons l rest ih =>
    intro k h
    cases hl : lineRecord jsonLoads l with
    | none =>
      simp only [drainLines, hl, List.filterMap_cons] at h ⊢
      exact ih k h
    | some d =>
      cases hs : sink k with
      | false => simp [drainLines, hl, hs] at h
      | true =>
        simp only [drainLines, hl, hs, if_true, List.filterMap_cons] at h ⊢
        obtain ⟨ih1, ih2⟩ := ih (k + 1) h
        refine ⟨by simp [ih1], ?_⟩
        intro j hj
        cases j with
        | zero => simpa using hs
        | succ j' =>
          have hj' : j' < (rest.filterMap (lineRecord jsonLoads)).length := by
            simpa using hj
          have := ih2 j' hj'
          have harith : k + 1 + j' = k + (j' + 1) := by omega
          rwa [harith] at this

/-- C2: if an insert raises, the loop iteration aborts before line 202 and
the cursor keeps its pre-batch value (it does not advance past the failing
line, nor at all); and the cursor advances only in an iteration in which
every complete line was fully handled — each parse-accepted record was
inserted with a successful sink call, the rest rejected as malformed. -/
theorem claim_C2_offset_only_after_handling (jsonLoads : String → Option Msg)
    (sink : Nat → Bool) (pos : Nat) (o : TailObs) :
    ((tailStep jsonLoads sink pos o).errored = true →
      (tailStep jsonLoads sink pos o).pos = truncAdjust pos o) ∧
    (o.present = true → o.newData ≠ "" →
      (tailStep jsonLoads sink pos o).errored = false →
      (tailStep jsonLoads sink pos o).inserted =
          (completeLines o.newData).filterMap (lineRecord jsonLoads) ∧
        ∀ j < ((completeLines o.newData).filterMap (lineRecord jsonLoads)).length,
          sink j = true) := by
  constructor
  · intro herr
    simp only [tailStep] at herr ⊢
    split_ifs at herr ⊢
    simp_all
  · intro hp hd herr
    have hp' : ¬ o.present = false := by simp [hp]
    simp only [tailStep, if_neg hp', if_neg hd] at herr ⊢
    by_cases hab : (drainLines jsonLoads sink (completeLines o.newData) 0).2 = true
    · rw [if_pos hab] at herr
      simp at herr
    · rw [if_neg hab] at herr ⊢
      obtain ⟨hh1, hh2⟩ := drainLines_no_abort jsonLoads sink (completeLines o.newData) 0
        (by simpa using hab)
      by_cases hcc : 0 < complete_count o.newData
      · rw [if_pos hcc]
        exact ⟨hh1, fun j hj => by simpa using hh2 j hj⟩
      · rw [if_neg hcc]
        exact ⟨hh1, fun j hj => by simpa using hh2 j hj⟩

/-- C2 witness: with a sink that fails, the iteration on the read of one
object line ends errored with the cursor still at its pre-batch value; with
a sink that succeeds, the iteration inserts exactly the parse-accepted
records. -/
theorem claim_C2_offset_only_after_handling_wit :
    (tailStep (fun _ => some [("message", Value.vStr "m")]) (fun _ => false) 0
        ⟨true, 4, "\x7bx\x7d\n"⟩).pos = 0 ∧
      (tailStep (fun _ => some [("message", Value.vStr "m")]) (fun _ => true) 0
          ⟨true, 4, "\x7bx\x7d\n"⟩).inserted =
        (completeLines "\x7bx\x7d\n").filterMap
          (lineRecord (fun _ => some [("message", Value.vStr "m")])) := by
  constructor
  · exact (claim_C2_offset_only_after_handling (fun _ => some [("message", Value.vStr "m")])
      (fun _ => false) 0 ⟨true, 4, "\x7bx\x7d\n"⟩).1 (by decide)
  · exact ((claim_C2_offset_only_after_handling (fun _ => some [("message", Value.vStr "m")])
      (fun _ => true) 0 ⟨true, 4, "\x7bx\x7d\n"⟩).2 rfl (by decide) (by decide)).1

/-- A successful attempt returns at once with no sleep. -/
theorem insertLoop_success (store : Nat → SinkOutcome) (maxR : Nat) (base : Rat)
    (a : Nat) (h : store a = .success) :
    insertLoop store maxR base a = (.inserted, []) := by
  unfold insertLoop
  rw [h]

/-- An OperationalError that is not retried (not locked/busy, or the attempt
budget is spent) raises at once with no sleep. -/
theorem insertLoop_raise_op (store : Nat → SinkOutcome) (maxR : Nat) (base : Rat)
    (a : Nat) (m : String) (h : store a = .opError m)
    (hc : ¬(is_lock_error m = true ∧ a < maxR)) :
    insertLoop store maxR base a = (.raisedOp m, []) := by
  unfold insertLoop
  rw [h]
  exact dif_neg hc

/-- Any other exception raises at once with no sleep. -/
theorem insertLoop_raise_other (store : Nat → SinkOutcome) (maxR : Nat) (base : Rat)
    (a : Nat) (m : String) (h : store a = .otherError m) :
    insertLoop store maxR base a = (.raisedOther m, []) := by
  unfold insertLoop
  rw [h]

/-- A locked/busy OperationalError within the budget sleeps base * 2 ^ attempt
and retries with attempt + 1. -/
theorem insertLoop_retry (store : Nat → SinkOutcome) (maxR : Nat) (base : Rat)
    (a : Nat) (m : String) (h : store a = .opError m)
    (hl : is_lock_error m = true) (ha : a < maxR) :
    insertLoop store maxR base a =
      ((insertLoop store maxR base (a + 1)).1,
        base * 2 ^ a :: (insertLoop store maxR base (a + 1)).2) := by
  conv_lhs => unfold insertLoop
  rw [h]
  exact dif_pos ⟨hl, ha⟩

/-- The j-th sleep performed from attempt a onward is base * 2 ^ (a + j). -/
theorem insertLoop_sleeps (store : Nat → SinkOutcome) (maxR : Nat) (base : Rat) :
    ∀ fuel a, maxR - a ≤ fuel → ∀ j x,
      ((insertLoop store maxR base a).2)[j]? = some x → x = base * 2 ^ (a + j) := by
  intro fuel
  induction fuel with
  | zero =>
    intro a ha j x hx
    have ha' : ¬ a < maxR := by omega
    cases hs : store a with
    | success => rw [insertLoop_success store maxR base a hs] at hx; simp at hx
    | opError m =>
      rw [insertLoop_raise_op store maxR base a m hs (fun hc => ha' hc.2)] at hx
      simp at hx
    | otherError m =>
      rw [insertLoop_raise_other store maxR base a m hs] at hx
      simp at hx
  | succ fuel ih =>
    intro a ha j x hx
    cases hs : store a with
    | success => rw [insertLoop_success store maxR base a hs] at hx; simp at hx
    | otherError m =>
      rw [insertLoop_raise_other store maxR base a m hs] at hx
      simp at hx
    | opError m =>
      by_cases hc : is_lock_error m = true ∧ a < maxR
      · rw [insertLoop_retry store maxR base a m hs hc.1 hc.2] at hx
        cases j with
        | zero =>
          simp at hx
          simpa using hx.symm
        | succ j' =>
          simp at hx
          have := ih (a + 1) (by omega) j' x hx
          rw [this, show a + 1 + j' = a + (j' + 1) by omega]
      · rw [insertLoop_raise_op store maxR base a m hs hc] at hx
        simp at hx

/-- When every attempt hits a locked/busy store, the loop performs exactly
maxR - a sleeps from attempt a and then raises the OperationalError. -/
theorem insertLoop_exhaust (store : Nat → SinkOutcome) (maxR : Nat) (base : Rat)
    (hall : ∀ i, ∃ m, store i = .opError m ∧ is_lock_error m = true) :
    ∀ fuel a, maxR - a ≤ fuel →
      ((insertLoop store maxR base a).2).length = maxR - a ∧
        ∃ m, (insertLoop store maxR base a).1 = .raisedOp m := by
  intro fuel
  induction fuel with
  | zero =>
    intro a ha
    obtain ⟨m, hm, _⟩ := hall a
    have ha' : ¬ a < maxR := by omega
    rw [insertLoop_raise_op store maxR base a m hm (fun hc => ha' hc.2)]
    exact ⟨by simp; omega, m, rfl⟩
  | succ fuel ih =>
    intro a ha
    obtain ⟨m, hm, hl⟩ := hall a
    by_cases hlt : a < maxR
    · rw [insertLoop_retry store maxR base a m hm hl hlt]
      obtain ⟨ih1, ih2⟩ := ih (a + 1) (by omega)
      refine ⟨?_, by simpa using ih2⟩
      simp [ih1]
      omega
    · rw [insertLoop_raise_op store maxR base a m hm (fun hc => hlt hc.2)]
      exact ⟨by simp; omega, m, rfl⟩

/-- C5: insert retries only on a locked/busy OperationalError — anything else
raises immediately with no retry and no sleep; the attempt counter starts at
0 and the j-th delay is base * 2 ^ j (so it starts at the configured base and
doubles each attempt); when the condition never clears the loop sleeps
exactly max_retries times and then surfaces the error; the deployed defaults
are max_retries = 6 and base 0.05 s. -/
theorem claim_C5_retry_policy (store : Nat → SinkOutcome) (maxR : Nat) (base : Rat) :
    (∀ m, store 0 = .opError m → is_lock_error m = false →
      insertLoop store maxR base 0 = (.raisedOp m, [])) ∧
    (∀ m, store 0 = .otherError m →
      insertLoop store maxR base 0 = (.raisedOther m, [])) ∧
    (∀ j x, ((insertLoop store maxR base 0).2)[j]? = some x → x = base * 2 ^ j) ∧
    ((∀ i, ∃ m, store i = .opError m ∧ is_lock_error m = true) →
      ((insertLoop store maxR base 0).2).length = maxR ∧
        ∃ m, (insertLoop store maxR base 0).1 = .raisedOp m) ∧
    insert_message store = insertLoop store 6 ((1 : Rat) / 20) 0 := by
  refine ⟨?_, ?_, ?_, ?_, rfl⟩
  · intro m hm hl
    refine insertLoop_raise_op store maxR base 0 m hm (fun hc => ?_)
    rw [hl] at hc
    exact Bool.false_ne_true hc.1
  · intro m hm
    exact insertLoop_raise_other store maxR base 0 m hm
  · intro j x hx
    have := insertLoop_sleeps store maxR base maxR 0 (by omega) j x hx
    simpa using this
  · intro hall
    have := insertLoop_exhaust store maxR base hall maxR 0 (by omega)
    simpa using this

/-- C5 witness: a non-lock OperationalError on the first attempt propagates
immediately, with no sleep performed. -/
theorem claim_C5_retry_policy_wit :
    insertLoop (fun _ => SinkOutcome.opError "constraint failed") 6 ((1 : Rat) / 20) 0 =
      (SinkResult.raisedOp "constraint failed", []) :=
  (claim_C5_retry_policy (fun _ => SinkOutcome.opError "constraint failed") 6
      ((1 : Rat) / 20)).1 "constraint failed" rfl (by decide)

end Buzzline

